import Mathlib

/-!
Shallow embedding of `src/Thoreaii.py` (a Streamlit PDF vocabulary trainer).

A vocabulary pair is a `(word, translation)` tuple of strings.  The module-level
Streamlit script keeps four pieces of session state (`vocab_df`, `flashcards`,
`current_index`, `show_translation`) plus a persisted CSV file; we model them as
an explicit `AppState` record and model the persisted file by the outcome a
reader would observe (`FileState`).  Each button block of the script becomes a
pure function on `AppState`.
-/

set_option autoImplicit false

/-- A vocabulary pair: `(word, translation)`. -/
abbrev VocabPair := String × String

/-- Line 13: `SUPPORTED_SEPARATORS = [" - ", " – ", " — ", ":", "="]`. -/
def SUPPORTED_SEPARATORS : List String := [" - ", " – ", " — ", ":", "="]

/-- Python's `str.strip()` on a character list: drop leading and trailing
whitespace. -/
def stripChars (l : List Char) : List Char :=
  ((l.dropWhile Char.isWhitespace).reverse.dropWhile Char.isWhitespace).reverse

/-- Python's `str.strip()`. -/
def pyStrip (s : String) : String :=
  String.mk (stripChars s.data)

/-- Scan for the first occurrence of `sep`: `some (before, after)` splits the
list at the leftmost position where `sep` starts, with `sep` itself removed;
`none` when `sep` does not occur. -/
def splitFirstChars (sep : List Char) : List Char → Option (List Char × List Char)
  | [] => if sep.isPrefixOf ([] : List Char) then some ([], []) else none
  | c :: rest =>
    if sep.isPrefixOf (c :: rest) then some ([], (c :: rest).drop sep.length)
    else
      match splitFirstChars sep rest with
      | some (w, t) => some (c :: w, t)
      | none => none

/-- Python's substring test `sep in line`. -/
def occursIn (line sep : String) : Bool :=
  (splitFirstChars sep.data line.data).isSome

/-- Python's `line.split(sep, 1)`: split at most once, at the first
occurrence of `sep`; a line without `sep` comes back whole. -/
def pySplit1 (line sep : String) : List String :=
  match splitFirstChars sep.data line.data with
  | none => [line]
  | some (w, t) => [String.mk w, String.mk t]

/-- Python's `text.splitlines()`, modelled as splitting at `\n`.  (CPython
also folds `\r\n`/`\r` and drops a trailing empty line; the parser strips
every line and skips blank ones, so those differences are absorbed.) -/
def splitLinesChars : List Char → List (List Char)
  | [] => [[]]
  | c :: rest =>
    if c = '\n' then [] :: splitLinesChars rest
    else
      match splitLinesChars rest with
      | [] => [[c]]
      | l :: ls => (c :: l) :: ls

/-- `text.splitlines()` at the `String` level. -/
def pySplitLines (text : String) : List String :=
  (splitLinesChars text.data).map String.mk

/-- Lines 53-59 of `parse_vocabulary`: split the line once at `sep`, strip
both parts, and keep the pair only when both stripped parts are nonempty. -/
def mkPairFromLine (line sep : String) : Option VocabPair :=
  match pySplit1 line sep with
  | [word, translation] =>
    let word := pyStrip word
    let translation := pyStrip translation
    if word ≠ "" ∧ translation ≠ "" then some (word, translation) else none
  | _ => none

/-- Lines 51-60: the `for sep in SUPPORTED_SEPARATORS` loop.  The `break`
sits inside `if sep in line:`, so the first separator that occurs in the
line is processed and the loop then stops, whether or not a pair was kept. -/
def parseLineLoop (seps : List String) (line : String) : Option VocabPair :=
  match seps with
  | [] => none
  | sep :: rest =>
    if occursIn line sep then mkPairFromLine line sep
    else parseLineLoop rest line

/-- Lines 39-62: `parse_vocabulary`.  Lines are stripped, blank lines are
skipped, and each remaining line contributes at most one pair. -/
def parse_vocabulary (text : String) : List VocabPair :=
  (pySplitLines text).filterMap fun raw =>
    let line := pyStrip raw
    if line = "" then none
    else parseLineLoop SUPPORTED_SEPARATORS line

/-- Specification-side description of the per-line parse (spec §4.1): the
FIRST separator of the priority list that occurs anywhere in the line is
chosen (`List.find?`), the line is split once at that separator's first
occurrence, both parts are trimmed, and the pair is kept only when both are
nonempty; no later separator of the list is ever tried. -/
def parseLineSpec (line : String) : Option VocabPair :=
  match SUPPORTED_SEPARATORS.find? (fun sep => occursIn line sep) with
  | none => none
  | some sep => mkPairFromLine line sep

/-! ### CSV persistence (`df.to_csv` / `pd.read_csv`)

The persisted file is written by `df.to_csv(index=False)` and read back by
`pd.read_csv`, which does not return the raw text: empty fields and NA
sentinels such as `"NA"` become NaN, and a column whose values all look
numeric (or boolean) is converted to a numeric (boolean) dtype.  We therefore
model a read-back cell as either NaN, a value converted to a non-string
dtype, or the original string. -/

/-- A cell as observed after `pd.read_csv`: NaN (from an empty field or an NA
sentinel), a value converted to a numeric or boolean dtype (we record the raw
text, not the number), or the original string. -/
inductive Cell where
  | nan : Cell
  | conv : String → Cell
  | strval : String → Cell
deriving DecidableEq

/-- Default `na_values` of `pd.read_csv`: fields read back as NaN. -/
def naValues : List String :=
  ["", "#N/A", "#N/A N/A", "#NA", "-1.#IND", "-1.#QNAN", "-NaN", "-nan",
   "1.#IND", "1.#QNAN", "<NA>", "N/A", "NA", "NULL", "NaN", "None",
   "n/a", "nan", "null"]

/-- Default boolean field spellings recognised by the `pd.read_csv` C parser. -/
def boolValues : List String :=
  ["True", "TRUE", "true", "False", "FALSE", "false"]

/-- Whether the field is one of the NA sentinels. -/
def isNAString (s : String) : Bool := naValues.contains s

/-- Whether the field is a boolean spelling. -/
def isBoolLike (s : String) : Bool := boolValues.contains s

/-- A nonempty run of decimal digits. -/
def digitsOnly (l : List Char) : Bool := !l.isEmpty && l.all Char.isDigit

/-- Drop one optional leading sign. -/
def dropSign : List Char → List Char
  | '+' :: rest => rest
  | '-' :: rest => rest
  | l => l

/-- Digits with at most one decimal point (and at least one digit). -/
def mantissaOk (l : List Char) : Bool :=
  match splitFirstChars ['.'] l with
  | none => digitsOnly l
  | some (a, b) =>
    (!a.isEmpty || !b.isEmpty) && a.all Char.isDigit && b.all Char.isDigit

/-- Split at the first exponent marker `e`/`E`, if any. -/
def splitAtExp : List Char → Option (List Char × List Char)
  | [] => none
  | c :: rest =>
    if c == 'e' || c == 'E' then some ([], rest)
    else (splitAtExp rest).map fun p => (c :: p.1, p.2)

/-- Mantissa with an optional signed-integer exponent. -/
def numericCore (l : List Char) : Bool :=
  match splitAtExp l with
  | none => mantissaOk (dropSign l)
  | some (m, e) => mantissaOk (dropSign m) && digitsOnly (dropSign e)

/-- Case-insensitive comparison against a fixed spelling. -/
def lowerEq (l t : List Char) : Bool := (l.map Char.toLower) == t

/-- Whether `pd.read_csv` would parse the field as a number: an optionally
signed integer/decimal/scientific literal (surrounding whitespace tolerated)
or an infinity spelling. -/
def looksNumeric (s : String) : Bool :=
  numericCore (stripChars s.data) ||
    lowerEq (dropSign (stripChars s.data)) "inf".data ||
      lowerEq (dropSign (stripChars s.data)) "infinity".data

/-- A field free of delimiter, quote and line-break characters: it is
written to the CSV text verbatim and read back verbatim. -/
def fieldClean (cs : List Char) : Bool :=
  cs.all fun c => c != ',' && c != '"' && c != '\n' && c != '\r'

/-- A record free of line breaks and quotes: record splitting passes over it
unchanged. -/
def recClean (cs : List Char) : Bool :=
  cs.all fun c => c != '\n' && c != '"'

/-- Whether `csv` QUOTE_MINIMAL must quote the field: it contains the
delimiter, the quote character, or a line break. -/
def needsQuote (f : List Char) : Bool :=
  f.any fun c => c == ',' || c == '"' || c == '\n' || c == '\r'

/-- A field as written by `to_csv`: quoted, with inner quotes doubled, only
when necessary. -/
def escapeField (f : List Char) : List Char :=
  if needsQuote f then
    '"' :: (f.map fun c => if c == '"' then ['"', '"'] else [c]).flatten ++ ['"']
  else f

/-- One data row of `df.to_csv(index=False)`. -/
def rowChars (p : VocabPair) : List Char :=
  escapeField p.1.data ++ ',' :: (escapeField p.2.data ++ ['\n'])

/-- `df.to_csv(index=False)`: header row then one line per pair. -/
def pd_to_csv (df : List VocabPair) : String :=
  String.mk ("word,translation\n".data ++ (df.map rowChars).flatten)

/-- Split the text into records at line breaks that are not inside a quoted
field. -/
def splitRecordsAux (inQuote : Bool) : List Char → List (List Char)
  | [] => [[]]
  | c :: rest =>
    if c == '\n' && !inQuote then [] :: splitRecordsAux false rest
    else
      match splitRecordsAux (if c == '"' then !inQuote else inQuote) rest with
      | [] => [[c]]
      | l :: ls => (c :: l) :: ls

/-- Split a record into fields at commas that are not inside a quoted field. -/
def splitFieldsAux (inQuote : Bool) : List Char → List (List Char)
  | [] => [[]]
  | c :: rest =>
    if c == ',' && !inQuote then [] :: splitFieldsAux false rest
    else
      match splitFieldsAux (if c == '"' then !inQuote else inQuote) rest with
      | [] => [[c]]
      | l :: ls => (c :: l) :: ls

/-- Undo the doubling of quote characters inside a quoted field. -/
def collapseQuotes : List Char → List Char
  | [] => []
  | '"' :: '"' :: rest => '"' :: collapseQuotes rest
  | c :: rest => c :: collapseQuotes rest

/-- Strip one level of surrounding quotes (and undouble inner quotes) from a
field that is quoted; other fields are kept verbatim. -/
def unquoteField (f : List Char) : List Char :=
  match f with
  | [] => []
  | c :: rest =>
    if c == '"' && rest.getLast? == some '"' then collapseQuotes rest.dropLast
    else c :: rest

/-- Data rows as raw strings: two fields per row; a short row is NaN-filled
(its missing field reads as the empty string, an NA sentinel); a row with
more than two fields raises `ParserError`; blank lines are skipped. -/
def rawRows : List (List Char) → Except String (List (String × String))
  | [] => .ok []
  | r :: rs =>
    if r.isEmpty then rawRows rs
    else
      match (splitFieldsAux false r).map unquoteField with
      | [a, b] => (rawRows rs).map fun rest => (String.mk a, String.mk b) :: rest
      | [a] => (rawRows rs).map fun rest => (String.mk a, "") :: rest
      | _ => .error "ParserError"

/-- Drop the empty record after the final line break, when present. -/
def trimTrailingRecord (records : List (List Char)) : List (List Char) :=
  match records.getLast? with
  | some [] => records.dropLast
  | _ => records

/-- The record/field layer of `pd.read_csv`: empty input raises
`EmptyDataError`, the first record is the header, the rest are data rows. -/
def parseRawRows (cs : List Char) : Except String (List (String × String)) :=
  if cs.isEmpty then .error "EmptyDataError"
  else
    match trimTrailingRecord (splitRecordsAux false cs) with
    | [] => .error "EmptyDataError"
    | _header :: rows => rawRows rows

/-- How a single field reads back, given whether its column was converted to
a non-string dtype: NA sentinels become NaN in every column. -/
def mkCell (converted : Bool) (s : String) : Cell :=
  if isNAString s then .nan
  else if converted then .conv s
  else .strval s

/-- Pandas dtype inference is per column: a column is converted when every
field is an NA sentinel or numeric-looking (then numeric), or every field is
an NA sentinel or a boolean spelling (then boolean). -/
def colConverted (cells : List String) : Bool :=
  (!cells.isEmpty && cells.all fun c => isNAString c || looksNumeric c) ||
    (!cells.isEmpty && cells.all fun c => isNAString c || isBoolLike c)

/-- Apply NA conversion and per-column dtype inference to the raw rows. -/
def convertColumns (rows : List (String × String)) : List (Cell × Cell) :=
  rows.map fun p =>
    (mkCell (colConverted (rows.map fun q => q.1)) p.1,
     mkCell (colConverted (rows.map fun q => q.2)) p.2)

/-- `pd.read_csv` on the file text: parse records and fields, then convert
cells as pandas does. -/
def pd_read_csv (text : String) : Except String (List (Cell × Cell)) :=
  (parseRawRows text.data).map convertColumns

/-- The persisted CSV file, modelled by what a reader observes: absent, or
present with a read outcome (`pd.read_csv` either returns converted rows or
raises, e.g. `ParserError` on corrupt content). -/
inductive FileState where
  | absent : FileState
  | present : Except String (List (Cell × Cell)) → FileState

/-- Lines 65-69: `load_saved_vocabularies`.  If the file exists the result of
`pd.read_csv` is returned as-is — there is no `try`/`except`, so a raising
read propagates; only an absent file yields the empty table. -/
def load_saved_vocabularies : FileState → Except String (List (Cell × Cell))
  | .absent => .ok []
  | .present r => r

/-- Lines 72-74: `save_vocabularies` overwrites the file with
`df.to_csv(index=False)`; what a subsequent read observes is `pd.read_csv`
applied to that text. -/
def save_vocabularies (df : List VocabPair) (_fs : FileState) : FileState :=
  .present (pd_read_csv (pd_to_csv df))

/-- A field that survives the CSV round trip verbatim: not an NA sentinel,
not a boolean spelling, not numeric-looking, and free of delimiter, quote and
line-break characters. -/
def stableField (s : String) : Bool :=
  !isNAString s && !isBoolLike s && !looksNumeric s && fieldClean s.data

/-- `pandas.drop_duplicates` keeps the FIRST occurrence of each row; `seen`
accumulates the rows already emitted. -/
def dedupFirstAux (seen : List VocabPair) : List VocabPair → List VocabPair
  | [] => []
  | p :: ps =>
    if p ∈ seen then dedupFirstAux seen ps
    else p :: dedupFirstAux (p :: seen) ps

/-- `df.drop_duplicates()` on a row list. -/
def drop_duplicates (l : List VocabPair) : List VocabPair :=
  dedupFirstAux [] l

/-- Lines 132-134: `pd.concat([st.session_state.vocab_df, new_df]).drop_duplicates()`. -/
def mergeStore (store newPairs : List VocabPair) : List VocabPair :=
  drop_duplicates (store ++ newPairs)

/-- The script's per-rerun state: `st.session_state.vocab_df`, `flashcards`,
`current_index`, `show_translation`, plus the persisted file. -/
structure AppState where
  vocab_df : List VocabPair
  flashcards : List VocabPair
  current_index : Nat
  show_translation : Bool
  file : FileState

/-- Lines 128-138: the upload merge block.  When the parsed list `all_vocab`
is nonempty the store becomes the deduplicated concatenation and the success
message reports `len(new_df)` — the number of parsed rows; otherwise a warning
is shown (`none`) and the store is untouched. -/
def uploadMerge (st : AppState) (all_vocab : List VocabPair) : AppState × Option Nat :=
  if all_vocab ≠ [] then
    ({ st with vocab_df := mergeStore st.vocab_df all_vocab }, some all_vocab.length)
  else (st, none)

/-- Lines 157-160: the clear button empties the in-memory table and the
flashcards; nothing is written to the file. -/
def clearButton (st : AppState) : AppState :=
  { st with vocab_df := [], flashcards := [] }

/-- Lines 152-153: the save button writes the current table to the file. -/
def saveButton (st : AppState) : AppState :=
  { st with file := save_vocabularies st.vocab_df st.file }

/-- Lines 170-178: the start button.  On an empty store only a warning is
shown (`true`) and the state is untouched; otherwise `vocab_df.sample(frac=1)`
— a random permutation of the rows, modelled by the `shuffle` oracle —
becomes the flashcards, with index 0 and the translation hidden. -/
def startButton (shuffle : List VocabPair → List VocabPair) (st : AppState) :
    AppState × Bool :=
  if st.vocab_df.isEmpty then (st, true)
  else
    ({ st with
        flashcards := shuffle st.vocab_df
        current_index := 0
        show_translation := false }, false)

/-- Lines 200-204: the next-card button advances the index modulo the number
of flashcards and hides the translation. -/
def advanceButton (st : AppState) : AppState :=
  { st with
      current_index := (st.current_index + 1) % st.flashcards.length
      show_translation := false }

/-- Lines 196-197: the reveal button toggles the translation. -/
def toggleRevealButton (st : AppState) : AppState :=
  { st with show_translation := !st.show_translation }

/-! ## Helper lemmas -/

/-- Unrolling the separator loop: it returns the processing of the first
separator that occurs in the line, and `none` when none occurs. -/
theorem parseLineLoop_eq_find (line : String) (seps : List String) :
    parseLineLoop seps line =
      match seps.find? (fun sep => occursIn line sep) with
      | none => none
      | some sep => mkPairFromLine line sep := by
  induction seps with
  | nil => rfl
  | cons sep rest ih =>
    cases hocc : occursIn line sep with
    | true => simp [parseLineLoop, hocc, List.find?_cons_of_pos]
    | false => simp [parseLineLoop, hocc, List.find?_cons_of_neg, ih]

/-- Membership in the deduplicated list: an element survives iff it occurs in
the input and was not already seen. -/
theorem mem_dedupFirstAux (x : VocabPair) (l : List VocabPair) :
    ∀ seen, x ∈ dedupFirstAux seen l ↔ x ∈ l ∧ x ∉ seen := by
  induction l with
  | nil => intro seen; simp [dedupFirstAux]
  | cons p ps ih =>
    intro seen
    by_cases hp : p ∈ seen
    · rw [dedupFirstAux, if_pos hp, ih]
      constructor
      · rintro ⟨h1, h2⟩
        exact ⟨List.mem_cons_of_mem p h1, h2⟩
      · rintro ⟨h1, h2⟩
        rcases List.mem_cons.mp h1 with rfl | h1
        · exact absurd hp h2
        · exact ⟨h1, h2⟩
    · rw [dedupFirstAux, if_neg hp]
      simp only [List.mem_cons, ih (p :: seen)]
      constructor
      · rintro (rfl | ⟨h1, h2⟩)
        · exact ⟨Or.inl rfl, hp⟩
        · exact ⟨Or.inr h1, fun hx => h2 (Or.inr hx)⟩
      · rintro ⟨rfl | h1, h2⟩
        · exact Or.inl rfl
        · by_cases hxp : x = p
          · exact Or.inl hxp
          · exact Or.inr ⟨h1, fun hx => hx.elim hxp h2⟩

/-- The deduplicated list never repeats an element. -/
theorem nodup_dedupFirstAux (l : List VocabPair) :
    ∀ seen, (dedupFirstAux seen l).Nodup := by
  induction l with
  | nil => intro seen; simp [dedupFirstAux]
  | cons p ps ih =>
    intro seen
    by_cases hp : p ∈ seen
    · rw [dedupFirstAux, if_pos hp]; exact ih seen
    · rw [dedupFirstAux, if_neg hp]
      refine List.nodup_cons.mpr ⟨?_, ih (p :: seen)⟩
      rw [mem_dedupFirstAux]
      rintro ⟨-, h2⟩
      exact h2 (List.mem_cons_self p seen)

/-- Deduplication depends on `seen` only through membership. -/
theorem dedupFirstAux_congr (l : List VocabPair) :
    ∀ s₁ s₂, (∀ x, x ∈ s₁ ↔ x ∈ s₂) → dedupFirstAux s₁ l = dedupFirstAux s₂ l := by
  induction l with
  | nil => intro s₁ s₂ _; rfl
  | cons p ps ih =>
    intro s₁ s₂ h
    by_cases hp : p ∈ s₁
    · rw [dedupFirstAux, if_pos hp, dedupFirstAux, if_pos ((h p).mp hp), ih s₁ s₂ h]
    · rw [dedupFirstAux, if_neg hp, dedupFirstAux, if_neg (fun hx => hp ((h p).mpr hx))]
      rw [ih (p :: s₁) (p :: s₂) fun x => by simp only [List.mem_cons, h x]]

/-- Running deduplication over an already-unseen, duplicate-free block leaves
it intact and pushes it onto `seen` for the rest. -/
theorem dedupFirstAux_append (l₂ : List VocabPair) :
    ∀ (l₁ seen : List VocabPair), l₁.Nodup → (∀ x ∈ l₁, x ∉ seen) →
      dedupFirstAux seen (l₁ ++ l₂) = l₁ ++ dedupFirstAux (l₁.reverse ++ seen) l₂ := by
  intro l₁
  induction l₁ with
  | nil => intro seen _ _; simp
  | cons p l₁ ih =>
    intro seen hnd hmem
    rw [List.cons_append, dedupFirstAux, if_neg (hmem p (List.mem_cons_self p l₁))]
    have hnd1 : l₁.Nodup := (List.nodup_cons.mp hnd).2
    have hp1 : p ∉ l₁ := (List.nodup_cons.mp hnd).1
    rw [ih (p :: seen) hnd1 fun x hx => by
      simp only [List.mem_cons]
      rintro (rfl | hs)
      · exact hp1 hx
      · exact hmem x (List.mem_cons_of_mem p hx) hs]
    rw [List.cons_append]
    have : (p :: l₁).reverse ++ seen = l₁.reverse ++ (p :: seen) := by
      rw [List.reverse_cons, List.append_assoc]; rfl
    rw [this]

/-- Deduplication of a block of already-seen elements produces nothing. -/
theorem dedupFirstAux_eq_nil (l : List VocabPair) :
    ∀ seen, (∀ x ∈ l, x ∈ seen) → dedupFirstAux seen l = [] := by
  induction l with
  | nil => intro seen _; rfl
  | cons p ps ih =>
    intro seen h
    rw [dedupFirstAux, if_pos (h p (List.mem_cons_self p ps))]
    exact ih seen fun x hx => h x (List.mem_cons_of_mem p hx)

/-- Merging into a duplicate-free store keeps the store in place and appends
the genuinely new pairs, deduplicated, in first-occurrence order. -/
theorem mergeStore_eq_append (s ps : List VocabPair) (hs : s.Nodup) :
    mergeStore s ps = s ++ dedupFirstAux s ps := by
  rw [mergeStore, drop_duplicates,
    dedupFirstAux_append ps s [] hs (by simp), List.append_nil]
  rw [dedupFirstAux_congr ps s.reverse s fun x => List.mem_reverse]

/-- Advancing never touches the flashcards, however often it is repeated. -/
theorem advanceButton_iterate_flashcards (st : AppState) :
    ∀ k, (advanceButton^[k] st).flashcards = st.flashcards := by
  intro k
  induction k with
  | zero => rfl
  | succ k ih =>
    rw [Function.iterate_succ_apply']
    show (advanceButton^[k] st).flashcards = st.flashcards
    exact ih

/-- After `k` advances from a position inside the deck, the position is the
original one shifted by `k`, modulo the deck size. -/
theorem advanceButton_iterate_index (st : AppState)
    (h : st.current_index < st.flashcards.length) :
    ∀ k, (advanceButton^[k] st).current_index =
      (st.current_index + k) % st.flashcards.length := by
  intro k
  induction k with
  | zero => simpa using (Nat.mod_eq_of_lt h).symm
  | succ k ih =>
    rw [Function.iterate_succ_apply']
    show ((advanceButton^[k] st).current_index + 1) %
        (advanceButton^[k] st).flashcards.length = _
    rw [advanceButton_iterate_flashcards st k, ih, Nat.mod_add_mod,
      Nat.add_assoc]

/-- A concrete two-card state used to instantiate the session theorems. -/
def sampleSession : AppState :=
  { vocab_df := [("dog", "Hund"), ("cat", "Katze")]
    flashcards := [("dog", "Hund"), ("cat", "Katze")]
    current_index := 1
    show_translation := true
    file := .absent }

/-- The state right after process start with no saved file. -/
def emptyState : AppState :=
  { vocab_df := []
    flashcards := []
    current_index := 0
    show_translation := false
    file := .absent }

/-- Spec §8 parser examples, checked by evaluating the embedding. -/
theorem parse_vocabulary_examples :
    parse_vocabulary "cat - Katze" = [("cat", "Katze")] ∧
    parse_vocabulary "a=b=c" = [("a", "b=c")] ∧
    parse_vocabulary "nosep here" = [] ∧
    parse_vocabulary "  - missing term" = [] ∧
    parse_vocabulary "dog - Hund\ncat: Katze\nbad line\n" =
      [("dog", "Hund"), ("cat", "Katze")] :=
  ⟨by decide, by decide, by decide, by decide, by decide⟩

/-! ### Round-trip lemmas for the CSV model -/

/-- Unpack the conjuncts of `stableField`. -/
theorem stableField_spec (s : String) (h : stableField s = true) :
    isNAString s = false ∧ isBoolLike s = false ∧ looksNumeric s = false ∧
      fieldClean s.data = true := by
  simp only [stableField, Bool.and_eq_true, Bool.not_eq_true'] at h
  exact ⟨h.1.1.1, h.1.1.2, h.1.2, h.2⟩

/-- A stable field has no delimiter, quote or line-break characters. -/
theorem fieldClean_of_stable (s : String) (h : stableField s = true) :
    fieldClean s.data = true :=
  (stableField_spec s h).2.2.2

/-- A clean field needs no quoting. -/
theorem needsQuote_eq_false (f : List Char) (h : fieldClean f = true) :
    needsQuote f = false := by
  cases hq : needsQuote f with
  | false => rfl
  | true =>
    rw [needsQuote, List.any_eq_true] at hq
    obtain ⟨c, hc, hcq⟩ := hq
    have hcl := List.all_eq_true.mp h c hc
    simp only [Bool.or_eq_true, beq_iff_eq] at hcq
    simp only [fieldClean, Bool.and_eq_true, bne_iff_ne] at hcl
    rcases hcq with ((h1 | h1) | h1) | h1
    · exact absurd h1 hcl.1.1.1
    · exact absurd h1 hcl.1.1.2
    · exact absurd h1 hcl.1.2
    · exact absurd h1 hcl.2

/-- A clean field is written verbatim. -/
theorem escapeField_eq (f : List Char) (h : fieldClean f = true) :
    escapeField f = f := by
  rw [escapeField, needsQuote_eq_false f h]
  rfl

/-- Clean fields are clean records. -/
theorem recClean_of_fieldClean (f : List Char) (h : fieldClean f = true) :
    recClean f = true := by
  rw [recClean, List.all_eq_true]
  intro c hc
  have hcl := List.all_eq_true.mp h c hc
  simp only [Bool.and_eq_true] at hcl ⊢
  exact ⟨hcl.1.2, hcl.1.1.2⟩

/-- A data record built from two clean fields is a clean record. -/
theorem recClean_row (w t : List Char) (hw : fieldClean w = true)
    (ht : fieldClean t = true) : recClean (w ++ ',' :: t) = true := by
  rw [recClean, List.all_eq_true]
  intro c hc
  rcases List.mem_append.mp hc with hc | hc
  · exact List.all_eq_true.mp (recClean_of_fieldClean w hw) c hc
  · rcases List.mem_cons.mp hc with rfl | hc
    · decide
    · exact List.all_eq_true.mp (recClean_of_fieldClean t ht) c hc

/-- Record splitting consumes one clean record up to its line break. -/
theorem splitRecordsAux_append (cs rest : List Char) (h : recClean cs = true) :
    splitRecordsAux false (cs ++ ('\n') :: rest) =
      cs :: splitRecordsAux false rest := by
  induction cs with
  | nil => rfl
  | cons c cs ih =>
    rw [recClean, List.all_cons, Bool.and_eq_true] at h
    obtain ⟨hc, hcs⟩ := h
    rw [Bool.and_eq_true, bne_iff_ne, bne_iff_ne] at hc
    have hn2 : (c == ('\n')) = false := beq_eq_false_iff_ne.mpr hc.1
    have hq2 : (c == ('\x22')) = false := beq_eq_false_iff_ne.mpr hc.2
    have hstep : splitRecordsAux false (c :: (cs ++ ('\n') :: rest)) =
        match splitRecordsAux false (cs ++ ('\n') :: rest) with
        | [] => [[c]]
        | l :: ls => (c :: l) :: ls := by
      simp [splitRecordsAux, hn2, hq2]
    rw [List.cons_append, hstep, ih hcs]

/-- Field splitting consumes one clean field up to its comma. -/
theorem splitFieldsAux_append (f rest : List Char) (h : fieldClean f = true) :
    splitFieldsAux false (f ++ ',' :: rest) = f :: splitFieldsAux false rest := by
  induction f with
  | nil => rfl
  | cons c cs ih =>
    rw [fieldClean, List.all_cons, Bool.and_eq_true] at h
    obtain ⟨hc, hcs⟩ := h
    simp only [Bool.and_eq_true, bne_iff_ne] at hc
    have hc2 : (c == ',') = false := beq_eq_false_iff_ne.mpr hc.1.1.1
    have hq2 : (c == ('\x22')) = false := beq_eq_false_iff_ne.mpr hc.1.1.2
    have hstep : splitFieldsAux false (c :: (cs ++ ',' :: rest)) =
        match splitFieldsAux false (cs ++ ',' :: rest) with
        | [] => [[c]]
        | l :: ls => (c :: l) :: ls := by
      simp [splitFieldsAux, hc2, hq2]
    rw [List.cons_append, hstep, ih hcs]

/-- A clean field without a trailing comma is one whole field. -/
theorem splitFieldsAux_nosep (f : List Char) (h : fieldClean f = true) :
    splitFieldsAux false f = [f] := by
  induction f with
  | nil => rfl
  | cons c cs ih =>
    rw [fieldClean, List.all_cons, Bool.and_eq_true] at h
    obtain ⟨hc, hcs⟩ := h
    simp only [Bool.and_eq_true, bne_iff_ne] at hc
    have hc2 : (c == ',') = false := beq_eq_false_iff_ne.mpr hc.1.1.1
    have hq2 : (c == ('\x22')) = false := beq_eq_false_iff_ne.mpr hc.1.1.2
    have hstep : splitFieldsAux false (c :: cs) =
        match splitFieldsAux false cs with
        | [] => [[c]]
        | l :: ls => (c :: l) :: ls := by
      simp [splitFieldsAux, hc2, hq2]
    rw [hstep, ih hcs]

/-- A clean field is not quoted, so unquoting keeps it verbatim. -/
theorem unquoteField_clean (f : List Char) (h : fieldClean f = true) :
    unquoteField f = f := by
  cases f with
  | nil => rfl
  | cons c rest =>
    rw [fieldClean, List.all_cons, Bool.and_eq_true] at h
    have hc := h.1
    simp only [Bool.and_eq_true, bne_iff_ne] at hc
    have hq2 : (c == ('\x22')) = false := beq_eq_false_iff_ne.mpr hc.1.1.2
    simp [unquoteField, hq2]

/-- Clean data records read back as exactly the original raw string rows. -/
theorem rawRows_rows (df : List VocabPair)
    (h : ∀ p ∈ df, fieldClean p.1.data = true ∧ fieldClean p.2.data = true) :
    rawRows (df.map fun p => p.1.data ++ ',' :: p.2.data) = .ok df := by
  induction df with
  | nil => rfl
  | cons p df ih =>
    obtain ⟨h1, h2⟩ := h p (List.mem_cons_self p df)
    have hne : (p.1.data ++ ',' :: p.2.data).isEmpty = false := by
      cases hp : p.1.data <;> rfl
    have hstep : rawRows ((p.1.data ++ ',' :: p.2.data) ::
        df.map fun q => q.1.data ++ ',' :: q.2.data) =
        match (splitFieldsAux false (p.1.data ++ ',' :: p.2.data)).map unquoteField with
        | [a, b] =>
          (rawRows (df.map fun q => q.1.data ++ ',' :: q.2.data)).map
            fun rest => (String.mk a, String.mk b) :: rest
        | [a] =>
          (rawRows (df.map fun q => q.1.data ++ ',' :: q.2.data)).map
            fun rest => (String.mk a, "") :: rest
        | _ => .error "ParserError" := by
      simp [rawRows, hne]
    rw [List.map_cons, hstep, splitFieldsAux_append _ _ h1,
      splitFieldsAux_nosep _ h2, List.map_cons, List.map_cons, List.map_nil,
      unquoteField_clean _ h1, unquoteField_clean _ h2,
      ih fun q hq => h q (List.mem_cons_of_mem p hq)]
    rfl

/-- Record splitting of the data lines of `to_csv`: one record per pair,
plus the empty record after the final line break. -/
theorem splitRecordsAux_rows (df : List VocabPair)
    (h : ∀ p ∈ df, fieldClean p.1.data = true ∧ fieldClean p.2.data = true) :
    splitRecordsAux false (df.map rowChars).flatten =
      (df.map fun p => p.1.data ++ ',' :: p.2.data) ++ [[]] := by
  induction df with
  | nil => rfl
  | cons p df ih =>
    obtain ⟨h1, h2⟩ := h p (List.mem_cons_self p df)
    rw [List.map_cons, List.flatten_cons, rowChars,
      escapeField_eq _ h1, escapeField_eq _ h2]
    have hassoc : (p.1.data ++ ',' :: (p.2.data ++ [('\n')])) ++
        (df.map rowChars).flatten =
        (p.1.data ++ ',' :: p.2.data) ++ ('\n') :: (df.map rowChars).flatten := by
      simp
    rw [hassoc, splitRecordsAux_append _ _ (recClean_row _ _ h1 h2),
      ih fun q hq => h q (List.mem_cons_of_mem p hq)]
    rfl

/-- Dropping the empty record created by the final line break. -/
theorem trimTrailingRecord_concat (l : List (List Char)) :
    trimTrailingRecord (l ++ [[]]) = l := by
  rw [trimTrailingRecord, List.getLast?_concat, List.dropLast_concat]

/-- The record/field layer of `read_csv` inverts `to_csv` on clean fields. -/
theorem parseRawRows_to_csv (df : List VocabPair)
    (h : ∀ p ∈ df, fieldClean p.1.data = true ∧ fieldClean p.2.data = true) :
    parseRawRows (pd_to_csv df).data = .ok df := by
  have hdata : (pd_to_csv df).data =
      "word,translation".data ++ ('\n') :: (df.map rowChars).flatten := by
    show "word,translation\n".data ++ (df.map rowChars).flatten = _
    rfl
  have hne : (pd_to_csv df).data.isEmpty = false := by rw [hdata]; rfl
  have hsplit : splitRecordsAux false (pd_to_csv df).data =
      ("word,translation".data ::
        (df.map fun p => p.1.data ++ ',' :: p.2.data)) ++ [[]] := by
    rw [hdata, splitRecordsAux_append _ _ (by decide),
      splitRecordsAux_rows df h]
    rfl
  have hstep : parseRawRows (pd_to_csv df).data =
      match trimTrailingRecord (splitRecordsAux false (pd_to_csv df).data) with
      | [] => .error "EmptyDataError"
      | _header :: rows => rawRows rows := by
    simp [parseRawRows, hne]
  rw [hstep, hsplit, trimTrailingRecord_concat]
  exact rawRows_rows df h

/-- A column containing one stable field is not dtype-converted. -/
theorem colConverted_false (cells : List String) (c : String) (hc : c ∈ cells)
    (h : stableField c = true) : colConverted cells = false := by
  obtain ⟨hna, hbool, hnum, -⟩ := stableField_spec c h
  have h1 : (cells.all fun x => isNAString x || looksNumeric x) = false := by
    cases hall : cells.all fun x => isNAString x || looksNumeric x with
    | false => rfl
    | true =>
      have := List.all_eq_true.mp hall c hc
      rw [hna, hnum] at this
      exact absurd this (by decide)
  have h2 : (cells.all fun x => isNAString x || isBoolLike x) = false := by
    cases hall : cells.all fun x => isNAString x || isBoolLike x with
    | false => rfl
    | true =>
      have := List.all_eq_true.mp hall c hc
      rw [hna, hbool] at this
      exact absurd this (by decide)
  rw [colConverted, h1, h2, Bool.and_false]
  rfl

/-- A stable field in an unconverted column reads back as itself. -/
theorem mkCell_stable (s : String) (h : stableField s = true) :
    mkCell false s = .strval s := by
  obtain ⟨hna, -, -, -⟩ := stableField_spec s h
  simp [mkCell, hna]

/-- Cell conversion is the identity (up to the `strval` wrapper) on rows of
stable fields. -/
theorem convertColumns_stable (df : List (String × String))
    (h : ∀ p ∈ df, stableField p.1 = true ∧ stableField p.2 = true) :
    convertColumns df = df.map fun p => (Cell.strval p.1, Cell.strval p.2) := by
  cases df with
  | nil => rfl
  | cons q df0 =>
    obtain ⟨hq1, hq2⟩ := h q (List.mem_cons_self q df0)
    have hc1 : colConverted ((q :: df0).map fun p => p.1) = false :=
      colConverted_false _ q.1
        (List.mem_map_of_mem _ (List.mem_cons_self q df0)) hq1
    have hc2 : colConverted ((q :: df0).map fun p => p.2) = false :=
      colConverted_false _ q.2
        (List.mem_map_of_mem _ (List.mem_cons_self q df0)) hq2
    rw [convertColumns, hc1, hc2]
    apply List.map_congr_left
    intro p hp
    obtain ⟨hp1, hp2⟩ := h p hp
    rw [mkCell_stable p.1 hp1, mkCell_stable p.2 hp2]

/-! ## Claims -/

/-- C1 (counterexample): the upload block reports `len(new_df)`, the number of
parsed rows including duplicates, not the post-dedup count of new pairs.
Merging `[A, B, A]` into an empty store reports 3, not 2 (even though the
store correctly ends up as `[A, B]`), and merging an already-present pair
reports 1, not 0. -/
theorem spec2proof_C1_counterexample :
    (uploadMerge emptyState
      [("dog", "Hund"), ("cat", "Katze"), ("dog", "Hund")]).2 ≠ some 2 ∧
    (uploadMerge emptyState
      [("dog", "Hund"), ("cat", "Katze"), ("dog", "Hund")]).2 = some 3 ∧
    (uploadMerge emptyState
      [("dog", "Hund"), ("cat", "Katze"), ("dog", "Hund")]).1.vocab_df =
      [("dog", "Hund"), ("cat", "Katze")] ∧
    (uploadMerge ⟨[("dog", "Hund")], [], 0, false, .absent⟩
      [("dog", "Hund")]).2 ≠ some 0 :=
  ⟨by decide, by decide, by decide, by decide⟩

/-- C1 (amended): for every store and every nonempty list of newly parsed
pairs, the merge-on-import operation reports the number of parsed pairs
(before any deduplication), and the store itself becomes the deduplicated
concatenation. -/
theorem spec2proof_C1 (st : AppState) (ps : List VocabPair) (h : ps ≠ []) :
    (uploadMerge st ps).2 = some ps.length ∧
    (uploadMerge st ps).1.vocab_df = mergeStore st.vocab_df ps := by
  rw [uploadMerge, if_pos h]
  exact ⟨rfl, rfl⟩

/-- C1 witness: merging the three parsed pairs `[A, B, A]` into the empty
store reports 3 and stores the deduplicated concatenation. -/
theorem spec2proof_C1_witness :
    (([("dog", "Hund"), ("cat", "Katze"), ("dog", "Hund")] : List VocabPair) ≠ []) ∧
    (uploadMerge emptyState
      [("dog", "Hund"), ("cat", "Katze"), ("dog", "Hund")]).2 = some 3 ∧
    (uploadMerge emptyState
      [("dog", "Hund"), ("cat", "Katze"), ("dog", "Hund")]).1.vocab_df =
      mergeStore emptyState.vocab_df
        [("dog", "Hund"), ("cat", "Katze"), ("dog", "Hund")] :=
  ⟨by decide,
   (spec2proof_C1 emptyState
      [("dog", "Hund"), ("cat", "Katze"), ("dog", "Hund")] (by decide)).1,
   (spec2proof_C1 emptyState
      [("dog", "Hund"), ("cat", "Katze"), ("dog", "Hund")] (by decide)).2⟩

/-- C2 (counterexample): `load_saved_vocabularies` has no exception handling;
when the file is present but reading it errors, the error propagates to the
caller instead of yielding an empty store. -/
theorem spec2proof_C2_counterexample :
    load_saved_vocabularies (.present (.error "ParserError")) =
      .error "ParserError" ∧
    load_saved_vocabularies (.present (.error "ParserError")) ≠ .ok [] :=
  ⟨rfl, fun h => Except.noConfusion h⟩

/-- C2 (amended): if the persisted file is absent, load returns an empty
store; if the file is present, whatever the read produces — rows or an
error — is passed through unchanged, so a read error is raised to the
caller. -/
theorem spec2proof_C2 :
    load_saved_vocabularies .absent = .ok ([] : List (Cell × Cell)) ∧
    ∀ r : Except String (List (Cell × Cell)),
      load_saved_vocabularies (.present r) = r :=
  ⟨rfl, fun _ => rfl⟩

/-- C3: for every line, the separator loop of `parse_vocabulary` picks the
first separator of the priority list that occurs anywhere in the line, splits
at its first occurrence, trims both parts, drops the line if either part is
then empty without trying later separators, and yields nothing when no
separator occurs; consequently `parse_vocabulary` is the line-wise map of
this specification over the stripped, non-blank lines. -/
theorem spec2proof_C3 :
    (∀ line : String,
      parseLineLoop SUPPORTED_SEPARATORS line = parseLineSpec line) ∧
    (∀ text : String, parse_vocabulary text =
      (pySplitLines text).filterMap fun raw =>
        let line := pyStrip raw
        if line = "" then none
        else parseLineSpec line) := by
  have hline : ∀ line : String,
      parseLineLoop SUPPORTED_SEPARATORS line = parseLineSpec line :=
    fun line => parseLineLoop_eq_find line SUPPORTED_SEPARATORS
  refine ⟨hline, fun text => ?_⟩
  rw [parse_vocabulary]
  congr 1
  funext raw
  simp only [hline]

/-- C4: merging leaves no duplicate pairs, keeps exactly the pairs of the
concatenation, and — when the store was duplicate-free — keeps the existing
entries in place and appends the genuinely new pairs in first-occurrence
order. -/
theorem spec2proof_C4 (s ps : List VocabPair) :
    (mergeStore s ps).Nodup ∧
    (∀ x, x ∈ mergeStore s ps ↔ x ∈ s ++ ps) ∧
    (s.Nodup → mergeStore s ps = s ++ dedupFirstAux s ps) := by
  refine ⟨nodup_dedupFirstAux (s ++ ps) [], fun x => ?_, mergeStore_eq_append s ps⟩
  rw [mergeStore, drop_duplicates, mem_dedupFirstAux]
  simp

/-- C4 witness: merging `[B, A]` into the duplicate-free store `[A]` keeps
`[A]` in place and appends the new pair `B`. -/
theorem spec2proof_C4_witness :
    List.Nodup ([("dog", "Hund")] : List VocabPair) ∧
    mergeStore [("dog", "Hund")] [("cat", "Katze"), ("dog", "Hund")] =
      [("dog", "Hund")] ++
        dedupFirstAux [("dog", "Hund")] [("cat", "Katze"), ("dog", "Hund")] :=
  ⟨by decide,
   (spec2proof_C4 [("dog", "Hund")]
      [("cat", "Katze"), ("dog", "Hund")]).2.2 (by decide)⟩

/-- C5: on a session with `N` cards and a valid position, advancing moves the
position to `(position + 1) mod N`, forces the translation hidden, and doing
so `N` times returns the position to its original value. -/
theorem spec2proof_C5 (st : AppState) (N : Nat)
    (hN : st.flashcards.length = N) (hN0 : 0 < N)
    (hpos : st.current_index < N) :
    (advanceButton st).current_index = (st.current_index + 1) % N ∧
    (advanceButton st).show_translation = false ∧
    (advanceButton^[N] st).current_index = st.current_index := by
  subst hN
  refine ⟨rfl, rfl, ?_⟩
  rw [advanceButton_iterate_index st hpos, Nat.add_mod_right,
    Nat.mod_eq_of_lt hpos]

/-- C5 witness: on the concrete two-card session at position 1 with the
translation shown, advancing wraps to position 0, hides the translation, and
two advances return to position 1. -/
theorem spec2proof_C5_witness :
    sampleSession.flashcards.length = 2 ∧ 0 < 2 ∧
    sampleSession.current_index < 2 ∧
    ((advanceButton sampleSession).current_index =
        (sampleSession.current_index + 1) % 2 ∧
      (advanceButton sampleSession).show_translation = false ∧
      (advanceButton^[2] sampleSession).current_index =
        sampleSession.current_index) :=
  ⟨rfl, by decide, by decide,
   spec2proof_C5 sampleSession 2 rfl (by decide) (by decide)⟩

/-- C6: starting on an empty store changes nothing and surfaces only a
warning; starting on a non-empty store makes the flashcards a permutation of
exactly the current store entries (the random `sample(frac=1)` is modelled by
any permutation-producing `shuffle`), with position 0 and the translation
hidden, while the store itself is untouched. -/
theorem spec2proof_C6 (shuffle : List VocabPair → List VocabPair)
    (hsh : ∀ l, (shuffle l).Perm l) (st : AppState) :
    (st.vocab_df = [] → startButton shuffle st = (st, true)) ∧
    (st.vocab_df ≠ [] →
      (startButton shuffle st).2 = false ∧
      ((startButton shuffle st).1.flashcards).Perm st.vocab_df ∧
      (startButton shuffle st).1.current_index = 0 ∧
      (startButton shuffle st).1.show_translation = false ∧
      (startButton shuffle st).1.vocab_df = st.vocab_df) := by
  constructor
  · intro h
    simp [startButton, h]
  · intro h
    have he : st.vocab_df.isEmpty = false := by
      cases hdf : st.vocab_df with
      | nil => exact absurd hdf h
      | cons a l => rfl
    have hs : startButton shuffle st =
        ({ st with
            flashcards := shuffle st.vocab_df
            current_index := 0
            show_translation := false }, false) := by
      simp [startButton, he]
    rw [hs]
    exact ⟨rfl, hsh st.vocab_df, rfl, rfl, rfl⟩

/-- C6 witness: starting on the concrete non-empty store (with the identity
permutation standing in for the shuffle) yields an active session over
exactly the store entries, at position 0, translation hidden. -/
theorem spec2proof_C6_witness :
    sampleSession.vocab_df ≠ [] ∧
    ((startButton id sampleSession).2 = false ∧
      ((startButton id sampleSession).1.flashcards).Perm
        sampleSession.vocab_df ∧
      (startButton id sampleSession).1.current_index = 0 ∧
      (startButton id sampleSession).1.show_translation = false ∧
      (startButton id sampleSession).1.vocab_df = sampleSession.vocab_df) :=
  ⟨by decide,
   (spec2proof_C6 id (fun l => List.Perm.refl l) sampleSession).2 (by decide)⟩

/-- C7 (counterexample): the pandas round trip is not exact.  Saving the
store `[("cat", "NA")]` and loading brings the translation back as NaN, not
the string `"NA"`; saving `[("1", "2")]` brings both columns back converted
to a numeric dtype, not the original strings. -/
theorem spec2proof_C7_counterexample :
    load_saved_vocabularies (save_vocabularies [("cat", "NA")] .absent) =
      .ok [(.strval "cat", .nan)] ∧
    load_saved_vocabularies (save_vocabularies [("cat", "NA")] .absent) ≠
      .ok [(.strval "cat", .strval "NA")] ∧
    load_saved_vocabularies (save_vocabularies [("1", "2")] .absent) =
      .ok [(.conv "1", .conv "2")] ∧
    Cell.conv "1" ≠ Cell.strval "1" :=
  ⟨rfl,
   fun h => absurd (Except.ok.inj h) (by decide),
   rfl, by decide⟩

/-- C7 (amended): save followed by load reproduces the exact sequence of
pairs, in order, provided every field is CSV-stable — not an NA sentinel
(such as `"NA"` or the empty string), not numeric- or boolean-looking, and
free of delimiter, quote and line-break characters; fields outside this set
can come back as NaN or as values of a converted dtype. -/
theorem spec2proof_C7 (df : List VocabPair) (fs : FileState)
    (h : ∀ p ∈ df, stableField p.1 = true ∧ stableField p.2 = true) :
    load_saved_vocabularies (save_vocabularies df fs) =
      .ok (df.map fun p => (Cell.strval p.1, Cell.strval p.2)) := by
  show pd_read_csv (pd_to_csv df) = _
  rw [pd_read_csv, parseRawRows_to_csv df
    (fun p hp => ⟨fieldClean_of_stable p.1 (h p hp).1,
                  fieldClean_of_stable p.2 (h p hp).2⟩)]
  show Except.ok (convertColumns df) = _
  rw [convertColumns_stable df h]

/-- C7 witness: a concrete store of two CSV-stable pairs saves and loads back
to exactly the same sequence of string pairs. -/
theorem spec2proof_C7_witness :
    load_saved_vocabularies
        (save_vocabularies [("dog", "Hund"), ("cat", "Katze")] .absent) =
      .ok [(.strval "dog", .strval "Hund"), (.strval "cat", .strval "Katze")] :=
  spec2proof_C7 [("dog", "Hund"), ("cat", "Katze")] .absent (by decide)

/-- C8: merging the same pair list twice is a no-op the second time: the
store contents after `merge(merge(store, P), P)` equal those after
`merge(store, P)`. -/
theorem spec2proof_C8 (s ps : List VocabPair) :
    mergeStore (mergeStore s ps) ps = mergeStore s ps := by
  have hm : (mergeStore s ps).Nodup := nodup_dedupFirstAux (s ++ ps) []
  rw [mergeStore_eq_append (mergeStore s ps) ps hm,
    dedupFirstAux_eq_nil ps (mergeStore s ps) ?hsub, List.append_nil]
  case hsub =>
    intro x hx
    rw [mergeStore, drop_duplicates, mem_dedupFirstAux]
    exact ⟨List.mem_append.mpr (Or.inr hx), List.not_mem_nil x⟩

/-- C9: the clear button returns an empty in-memory store and leaves the
persisted file exactly as it was (it is only changed by an explicit save). -/
theorem spec2proof_C9 (st : AppState) :
    (clearButton st).vocab_df = [] ∧ (clearButton st).file = st.file :=
  ⟨rfl, rfl⟩

/-- C10: advancing changes only the position and the reveal flag: the
flashcards (hence their pairs, order and length), the store and the file are
all unchanged, and any number of repeated advances still cycles over the same
card snapshot. -/
theorem spec2proof_C10 (st : AppState) :
    (advanceButton st).flashcards = st.flashcards ∧
    (advanceButton st).vocab_df = st.vocab_df ∧
    (advanceButton st).file = st.file ∧
    ∀ k, (advanceButton^[k] st).flashcards = st.flashcards :=
  ⟨rfl, rfl, rfl, advanceButton_iterate_flashcards st⟩
